import Mathlib

/-!
Verification of the request-time access-control and rate-limiting core of the
Venus-Systems backend.  Each definition is a shallow embedding of a function
from `backend/app`:

* `filter_fields`            — `app/utils/field_filter.py`
* `get_user_roles`,
  `get_user_permissions`     — `app/services/role_service.py` (the external
                               store call is a parameter of type `Except`)
* `get_current_user`,
  `get_optional_user`        — `app/dependencies/auth.py` (the `jose` JWT
                               library is modelled abstractly: a token carries
                               its claims plus the secret it was signed with)
* `permission_checker`       — `app/dependencies/rbac.py`
* `RateLimitStore`,
  `RateLimitConfigCache`,
  `get_best_rate_limit`,
  `dispatch`                 — `app/middleware/rate_limiter.py`

Python dictionaries are modelled as association lists with Python's
replace-or-append assignment; `datetime` timestamps are integers (seconds);
fallible external calls are `Except String` parameters.
-/

/-- A JSON-ish value stored in a Python dict. -/
inductive Value where
  | null : Value
  | str : String → Value
  | nat : Nat → Value
  | strList : List String → Value
  | natList : List Nat → Value
  deriving DecidableEq, Repr

/-- A Python dict with string keys, in insertion order. -/
abbrev Dict := List (String × Value)

/-- `d[k]` lookup: first entry with key `k`. -/
def dictGet (d : Dict) (k : String) : Option Value :=
  match d with
  | [] => none
  | (k', v) :: rest => if k' = k then some v else dictGet rest k

/-- `d[k] = v` assignment: replace the value if the key is present, append
otherwise (Python dict semantics, insertion order preserved). -/
def dictSet (d : Dict) (k : String) (v : Value) : Dict :=
  match d with
  | [] => [(k, v)]
  | (k', v') :: rest => if k' = k then (k, v) :: rest else (k', v') :: dictSet rest k v

/-- First value bound to `k` in a string-to-string association list
(a Python dict such as `field_config`). -/
def lookupStr (cfg : List (String × String)) (k : String) : Option String :=
  match cfg with
  | [] => none
  | (k', v) :: rest => if k' = k then some v else lookupStr rest k

/-- The body of the `for key, value in data.items()` loop of `filter_fields`:
add the field to `result` if its key is in `always_include`, or absent from
`field_config`, or its required permission is held. -/
def filterStep (user_permissions : List String)
    (field_config : List (String × String)) (ai : List String)
    (result : Dict) (kv : String × Value) : Dict :=
  if ai.contains kv.1 then
    dictSet result kv.1 kv.2
  else
    match lookupStr field_config kv.1 with
    | some required_permission =>
        if user_permissions.contains required_permission then
          dictSet result kv.1 kv.2
        else
          result
    | none => dictSet result kv.1 kv.2

/-- `filter_fields` from `app/utils/field_filter.py`: keep a field if it is in
`always_include` (default `{"id"}`), or absent from `field_config`, or its
required permission is among `user_permissions`.  The loop builds the result
dict by Python dict assignment. -/
def filter_fields (data : Dict) (user_permissions : List String)
    (field_config : List (String × String))
    (always_include : Option (List String)) : Dict :=
  data.foldl
    (filterStep user_permissions field_config (always_include.getD ["id"])) []

/-- `filter_fields_list` from `app/utils/field_filter.py`. -/
def filter_fields_list (data_list : List Dict) (user_permissions : List String)
    (field_config : List (String × String))
    (always_include : Option (List String)) : List Dict :=
  data_list.map (fun item => filter_fields item user_permissions field_config always_include)

/-- The boolean keep-condition applied by `filter_fields` to one field name. -/
def keepField (user_permissions : List String) (field_config : List (String × String))
    (ai : List String) (k : String) : Bool :=
  if ai.contains k then true
  else
    match lookupStr field_config k with
    | some required_permission => user_permissions.contains required_permission
    | none => true

/-- A row of the `roles` table as selected by the resolver. -/
structure RoleRec where
  id : Nat
  name : String
  description : Option String
  deriving DecidableEq, Repr

/-- A row of the `user_roles` join as returned by the store: the joined
`roles` record may be null. -/
structure UserRoleRow where
  role_id : Nat
  roles : Option RoleRec
  deriving DecidableEq, Repr

/-- A row returned by the `get_user_permissions` stored function. -/
structure PermRow where
  permission_key : String
  deriving DecidableEq, Repr

/-- `RoleService.get_user_roles` from `app/services/role_service.py`.  The
store call is the `fetch` parameter; any exception from it is caught and an
empty list is returned. -/
def get_user_roles (fetch : Except String (List UserRoleRow)) : List RoleRec :=
  match fetch with
  | .ok rows => rows.filterMap (fun item => item.roles)
  | .error _ => []

/-- `RoleService.get_user_permissions` from `app/services/role_service.py`:
projects `permission_key` from the stored-function rows; any exception from
the store is caught and an empty list is returned. -/
def get_user_permissions (fetch : Except String (List PermRow)) : List String :=
  match fetch with
  | .ok rows => rows.map (fun item => item.permission_key)
  | .error _ => []

/-- `RoleService.get_user_store_ids` from `app/services/role_service.py`. -/
def get_user_store_ids (fetch : Except String (List Nat)) : List Nat :=
  match fetch with
  | .ok rows => rows
  | .error _ => []

/-- A bearer token, modelling a signed JWT abstractly: the claims plus the
secret the signature was produced with. -/
structure Token where
  sig_secret : String
  exp : Option Int
  aud : Option String
  sub : Option String
  email : Option String
  role : Option String
  deriving DecidableEq, Repr

/-- Whether the token is expired at time `now` (the `jose` library raises
`ExpiredSignatureError` when the `exp` claim is in the past). -/
def tokenExpired (tok : Token) (now : Int) : Bool :=
  match tok.exp with
  | some e => e < now
  | none => false

/-- The decoded claim set handed back by `jwt.decode`. -/
structure Payload where
  sub : Option String
  email : Option String
  role : Option String
  aud : Option String
  deriving DecidableEq, Repr

/-- `jwt.decode(token, secret, algorithms=["HS256"], audience="authenticated")`
modelled abstractly: fails when the signature secret differs, the token is
expired, or the audience claim is not the expected `"authenticated"`. -/
def jwtDecode (tok : Token) (secret : String) (now : Int) : Except String Payload :=
  if tok.sig_secret ≠ secret then .error "signature verification failed"
  else if tokenExpired tok now then .error "token is expired"
  else if tok.aud ≠ some "authenticated" then .error "invalid audience"
  else .ok ⟨tok.sub, tok.email, tok.role, tok.aud⟩

/-- The failure taxonomy of the authentication dependency: HTTP 401. -/
inductive AuthError where
  | unauthenticated : AuthError
  deriving DecidableEq, Repr

/-- HTTP status code of an `AuthError`. -/
def AuthError.statusCode : AuthError → Nat
  | .unauthenticated => 401

/-- The user dict built by `get_current_user` from the token payload. -/
structure Identity where
  id : String
  email : Option String
  role : Option String
  aud : Option String
  deriving DecidableEq, Repr

/-- `get_current_user` from `app/dependencies/auth.py`: decode the JWT, fail
with 401 on any `JWTError` or on a missing `sub` claim, otherwise return the
user data from the token. -/
def get_current_user (tok : Token) (secret : String) (now : Int) :
    Except AuthError Identity :=
  match jwtDecode tok secret now with
  | .error _ => .error .unauthenticated
  | .ok payload =>
    match payload.sub with
    | none => .error .unauthenticated
    | some user_id => .ok ⟨user_id, payload.email, payload.role, payload.aud⟩

/-- `get_optional_user` from `app/dependencies/auth.py`: `None` when no
credential is supplied; otherwise run `get_current_user` and turn an
`HTTPException` into `None`. -/
def get_optional_user (credentials : Option Token) (secret : String) (now : Int) :
    Option Identity :=
  match credentials with
  | none => none
  | some tok =>
    match get_current_user tok secret now with
    | .ok user => some user
    | .error _ => none

/-- The failure taxonomy of the RBAC dependencies: HTTP 403 with the required
permission list in the detail. -/
inductive RbacError where
  | forbidden : List String → RbacError
  deriving DecidableEq, Repr

/-- HTTP status code of an `RbacError`. -/
def RbacError.statusCode : RbacError → Nat
  | .forbidden _ => 403

/-- The inner `permission_checker` of `require_permission` from
`app/dependencies/rbac.py`, with the resolver's outputs as parameters
(`user_permissions` from `get_user_permissions`, `user_roles` from
`get_user_roles`, `store_ids` from `get_user_store_ids`): deny with 403
unless every required permission is held, otherwise enrich the user dict
with `roles`, `store_ids` and `user_id`. -/
def permission_checker (required_permissions : List String)
    (user_permissions : List String) (user_roles : List RoleRec)
    (store_ids : List Nat) (current_user : Dict) : Except RbacError Dict :=
  let has_all_permissions :=
    required_permissions.all (fun perm => user_permissions.contains perm)
  if has_all_permissions then
    let u1 := dictSet current_user "roles"
      (.strList (user_roles.map (fun role => role.name)))
    let u2 := dictSet u1 "store_ids" (.natList store_ids)
    let u3 := dictSet u2 "user_id" ((dictGet current_user "id").getD .null)
    .ok u3
  else
    .error (.forbidden required_permissions)

/-- The inner `role_checker` of `require_role` from `app/dependencies/rbac.py`:
deny with 403 unless the user holds one of the allowed roles, otherwise enrich
the user dict with `roles`, `store_ids` and `user_id`. -/
def role_checker (allowed_roles : List String) (user_roles : List RoleRec)
    (store_ids : List Nat) (current_user : Dict) : Except RbacError Dict :=
  let user_role_names := user_roles.map (fun role => role.name)
  let has_role := user_role_names.any (fun role => allowed_roles.contains role)
  if has_role then
    let u1 := dictSet current_user "roles" (.strList user_role_names)
    let u2 := dictSet u1 "store_ids" (.natList store_ids)
    let u3 := dictSet u2 "user_id" ((dictGet current_user "id").getD .null)
    .ok u3
  else
    .error (.forbidden allowed_roles)

/-- A row of the `rate_limit_configs` table as cached by the limiter.  Each
field read in the Python goes through `dict.get` with a default, so the
columns are optional here. -/
structure RateLimitConfig where
  role_id : Nat
  requests_per_minute : Option Nat
  requests_per_hour : Option Nat
  enabled : Option Bool
  deriving DecidableEq, Repr

/-- The per-subject sliding-window timestamp lists of `RateLimitStore`
(`defaultdict(list)`: every key reads as `[]` until written). -/
structure StoreState where
  minute_requests : String → List Int
  hour_requests : String → List Int

/-- A fresh `RateLimitStore`. -/
def emptyStore : StoreState :=
  ⟨fun _ => [], fun _ => []⟩

/-- `RateLimitStore.record_request`: append `now` to both windows of the
user. -/
def record_request (s : StoreState) (user_id : String) (now : Int) : StoreState :=
  ⟨fun u => if u = user_id then s.minute_requests u ++ [now] else s.minute_requests u,
   fun u => if u = user_id then s.hour_requests u ++ [now] else s.hour_requests u⟩

/-- `RateLimitStore.get_request_counts`: prune each window to the trailing 60
and 3600 seconds, store the pruned lists back, and return both counts. -/
def get_request_counts (s : StoreState) (user_id : String) (now : Int) :
    StoreState × Nat × Nat :=
  let newMinute := (s.minute_requests user_id).filter (fun ts => now - 60 < ts)
  let newHour := (s.hour_requests user_id).filter (fun ts => now - 3600 < ts)
  (⟨fun u => if u = user_id then newMinute else s.minute_requests u,
    fun u => if u = user_id then newHour else s.hour_requests u⟩,
   newMinute.length, newHour.length)

/-- The state of `RateLimitConfigCache`: the role-id-keyed config dict and the
last refresh instant. -/
structure CacheState where
  cache : List (Nat × RateLimitConfig)
  last_refresh : Option Int
  deriving DecidableEq, Repr

/-- Replace-or-append assignment for the nat-keyed cache dict. -/
def natDictSet (d : List (Nat × RateLimitConfig)) (k : Nat) (v : RateLimitConfig) :
    List (Nat × RateLimitConfig) :=
  if (d.map Prod.fst).contains k then
    d.map (fun p => if p.1 = k then (k, v) else p)
  else
    d ++ [(k, v)]

/-- First config bound to `role_id` in the cache dict. -/
def natDictGet (d : List (Nat × RateLimitConfig)) (k : Nat) : Option RateLimitConfig :=
  match d with
  | [] => none
  | (k', v) :: rest => if k' = k then some v else natDictGet rest k

/-- The dict comprehension `{config['role_id']: config for config in data}`. -/
def buildCache (data : List RateLimitConfig) : List (Nat × RateLimitConfig) :=
  data.foldl (fun acc config => natDictSet acc config.role_id config) []

/-- `RateLimitConfigCache._refresh_cache`: replace the cache from the store
query and stamp `last_refresh`; any exception from the query is caught and
the state is left untouched. -/
def refresh_cache (fetch : Except String (List RateLimitConfig)) (now : Int)
    (st : CacheState) : CacheState :=
  match fetch with
  | .ok data => ⟨buildCache data, some now⟩
  | .error _ => st

/-- `RateLimitConfigCache.get_config`: refresh when the cache has never been
filled or is older than the TTL, then look the role up.  The final component
records whether the refresh branch ran (whether `_refresh_cache` was
invoked). -/
def get_config (fetch : Except String (List RateLimitConfig)) (ttl : Int)
    (now : Int) (st : CacheState) (role_id : Nat) :
    CacheState × Option RateLimitConfig × Bool :=
  let needsRefresh :=
    match st.last_refresh with
    | none => true
    | some lr => ttl < now - lr
  let st' := if needsRefresh then refresh_cache fetch now st else st
  (st', natDictGet st'.cache role_id, needsRefresh)

/-- `RateLimitConfigCache.invalidate`: clear the last-refresh stamp so the
next read refreshes. -/
def invalidate (st : CacheState) : CacheState :=
  ⟨st.cache, none⟩

/-- What `_get_user_info` extracts from the token and the `user_roles`
table. -/
structure UserInfo where
  user_id : String
  role_ids : List Nat
  deriving DecidableEq, Repr

/-- The loop of `RateLimiterMiddleware._get_best_rate_limit`, generic in the
state `σ` threaded through the awaited `get_config` calls: keep the config
with the strictly highest `requests_per_minute` (read with default 0) seen so
far. -/
def bestLoop {σ : Type} (getCfg : σ → Nat → σ × Option RateLimitConfig) :
    List Nat → σ → Option RateLimitConfig → Nat → σ × Option RateLimitConfig
  | [], s, best_config, _ => (s, best_config)
  | role_id :: rest, s, best_config, best_rpm =>
    match getCfg s role_id with
    | (s', some config) =>
      if best_rpm < config.requests_per_minute.getD 0 then
        bestLoop getCfg rest s' (some config) (config.requests_per_minute.getD 0)
      else
        bestLoop getCfg rest s' best_config best_rpm
    | (s', none) => bestLoop getCfg rest s' best_config best_rpm

/-- `RateLimiterMiddleware._get_best_rate_limit`: `None` for an empty role
list, otherwise the loop from `best_config = None`, `best_rpm = 0`. -/
def get_best_rate_limit {σ : Type} (getCfg : σ → Nat → σ × Option RateLimitConfig)
    (role_ids : List Nat) (s : σ) : σ × Option RateLimitConfig :=
  if role_ids.isEmpty then (s, none)
  else bestLoop getCfg role_ids s none 0

/-- A pure config source threaded as trivial state, for stating properties of
the selection logic in isolation. -/
def pureGetCfg (g : Nat → Option RateLimitConfig) :
    Unit → Nat → Unit × Option RateLimitConfig :=
  fun _ role_id => ((), g role_id)

/-- The config source used by `dispatch` in the source: the shared
`rate_limit_config_cache`, whose state is threaded through the calls. -/
def cacheGetCfg (fetch : Except String (List RateLimitConfig)) (ttl : Int)
    (now : Int) : CacheState → Nat → CacheState × Option RateLimitConfig :=
  fun st role_id =>
    let r := get_config fetch ttl now st role_id
    (r.1, r.2.1)

/-- `str.startswith(pfx)`, computed over the character lists. -/
def strStartsWith (s pfx : String) : Bool :=
  pfx.data.isPrefixOf s.data

/-- Rate-limit response headers: limit-minute, limit-hour, remaining-minute,
remaining-hour. -/
structure RateHeaders where
  limitMinute : Nat
  limitHour : Nat
  remainingMinute : Nat
  remainingHour : Nat
  deriving DecidableEq, Repr

/-- The observable outcome of `RateLimiterMiddleware.dispatch`: the request is
forwarded to `call_next` (with rate headers on the response when the limiter
applied), or rejected with HTTP 429 and a `Retry-After` value. -/
inductive Outcome where
  | forwarded : Option RateHeaders → Outcome
  | rejected : Nat → Outcome
  deriving DecidableEq, Repr

/-- The body of `RateLimiterMiddleware.dispatch` (inside its `try`), generic
in the config-source state `σ`.  `userInfo` is the result of
`_get_user_info` (which catches its own exceptions and yields `None`).
Remaining-quota headers are computed from the pre-record counts with
truncating subtraction, matching `max(0, limit - count - 1)`. -/
def dispatch {σ : Type} (getCfg : σ → Nat → σ × Option RateLimitConfig)
    (excludedPath : Bool) (authHeader : Option String) (userInfo : Option UserInfo)
    (cs : σ) (store : StoreState) (now : Int) : Outcome × σ × StoreState :=
  if excludedPath then (.forwarded none, cs, store)
  else
    match authHeader with
    | none => (.forwarded none, cs, store)
    | some h =>
      if ¬ strStartsWith h "Bearer " then (.forwarded none, cs, store)
      else
        match userInfo with
        | none => (.forwarded none, cs, store)
        | some ui =>
          match get_best_rate_limit getCfg ui.role_ids cs with
          | (cs1, none) => (.forwarded none, cs1, store)
          | (cs1, some config) =>
            if config.enabled.getD true = false then (.forwarded none, cs1, store)
            else
              let (store1, minute_count, hour_count) :=
                get_request_counts store ui.user_id now
              let rpm_limit := config.requests_per_minute.getD 60
              let rph_limit := config.requests_per_hour.getD 1000
              if rpm_limit ≤ minute_count then (.rejected 60, cs1, store1)
              else if rph_limit ≤ hour_count then (.rejected 3600, cs1, store1)
              else
                (.forwarded (some ⟨rpm_limit, rph_limit,
                    rpm_limit - (minute_count + 1), rph_limit - (hour_count + 1)⟩),
                 cs1, record_request store1 ui.user_id now)

/-- The `try/except` wrapper of `dispatch` (its last lines): any exception
raised by the body is caught and the request is forwarded with no headers. -/
def dispatchSafe {σ : Type} (body : Except String (Outcome × σ × StoreState))
    (fallback : σ × StoreState) : Outcome × σ × StoreState :=
  match body with
  | .ok r => r
  | .error _ => (.forwarded none, fallback.1, fallback.2)

/-- `dispatch` with a pure config source, keeping only the outcome and the
window store. -/
def dispatchPure (g : Nat → Option RateLimitConfig) (userInfo : Option UserInfo)
    (store : StoreState) (now : Int) : Outcome × StoreState :=
  let r := dispatch (pureGetCfg g) false (some "Bearer token") userInfo () store now
  (r.1, r.2.2)

/-- Run one throttled request per timestamp, threading the window store. -/
def runRequests (g : Nat → Option RateLimitConfig) (userInfo : Option UserInfo)
    (store : StoreState) : List Int → StoreState
  | [] => store
  | t :: ts => runRequests g userInfo (dispatchPure g userInfo store t).2 ts

/-! ## Association-list dictionary lemmas -/

theorem dictGet_set_self (d : Dict) (k : String) (v : Value) :
    dictGet (dictSet d k v) k = some v := by
  induction d with
  | nil => simp [dictSet, dictGet]
  | cons a rest ih =>
    obtain ⟨b, w⟩ := a
    by_cases hb : b = k
    · simp [dictSet, dictGet, hb]
    · simp [dictSet, dictGet, hb, ih]

theorem dictGet_set_ne (d : Dict) (k : String) (v : Value) (k' : String)
    (h : k' ≠ k) :
    dictGet (dictSet d k v) k' = dictGet d k' := by
  induction d with
  | nil => simp [dictSet, dictGet, Ne.symm h]
  | cons a rest ih =>
    obtain ⟨b, w⟩ := a
    by_cases hb : b = k
    · subst hb
      simp [dictSet, dictGet, Ne.symm h]
    · simp [dictSet, dictGet, hb, ih]

theorem dictSet_fresh (d : Dict) (k : String) (v : Value)
    (h : ¬ k ∈ d.map Prod.fst) :
    dictSet d k v = d ++ [(k, v)] := by
  induction d with
  | nil => rfl
  | cons a rest ih =>
    obtain ⟨b, w⟩ := a
    simp only [List.map_cons, List.mem_cons, not_or] at h
    have hb : ¬ b = k := fun hh => h.1 hh.symm
    simp [dictSet, hb, ih h.2]

/-! ## C2 — role/permission resolver error behaviour -/

/-- C2 counterexample: the claim says the resolver fails with a
`ResolutionError` exactly when the external store is unreachable.  In the
code both `get_user_roles` and `get_user_permissions` catch every exception
from the store and return a plain empty list, so an unreachable store
produces the very same valid empty result as a subject with no rows — no
error value of any kind is surfaced. -/
theorem C2_counterexample :
    get_user_roles (.error "store unreachable") = get_user_roles (.ok []) ∧
    get_user_permissions (.error "store unreachable") = get_user_permissions (.ok []) ∧
    get_user_roles (.error "store unreachable") = [] ∧
    get_user_permissions (.error "store unreachable") = [] :=
  ⟨rfl, rfl, rfl, rfl⟩

/-- C2 (amended): the resolver never raises.  Any store failure is caught,
logged, and turned into an empty list — indistinguishable from a subject
that simply has no role or permission rows — while a successful store call
yields the projected rows.  Store unreachability therefore surfaces
downstream as an ordinary denial, not as `ServiceUnavailable`. -/
theorem C2_resolver_amended (e : String) (rows : List UserRoleRow)
    (prows : List PermRow) (sids : List Nat) :
    get_user_roles (.error e) = [] ∧
    get_user_permissions (.error e) = [] ∧
    get_user_store_ids (.error e) = [] ∧
    get_user_roles (.ok rows) = rows.filterMap (fun item => item.roles) ∧
    get_user_permissions (.ok prows) = prows.map (fun item => item.permission_key) ∧
    get_user_store_ids (.ok sids) = sids :=
  ⟨rfl, rfl, rfl, rfl, rfl, rfl⟩

/-! ## C3 — token validity -/

/-- C3: a token signed with the correct secret, unexpired, with audience
`"authenticated"` and a `sub` claim yields an `Identity` whose subject is
the `sub` claim; a wrong secret, an expired token, a wrong audience, or a
missing `sub` claim yields `Unauthenticated` (HTTP 401). -/
theorem C3_token_validity (tok : Token) (secret : String) (now : Int) :
    (∀ s, tok.sig_secret = secret → tokenExpired tok now = false →
      tok.aud = some "authenticated" → tok.sub = some s →
      get_current_user tok secret now = .ok ⟨s, tok.email, tok.role, tok.aud⟩) ∧
    ((tok.sig_secret ≠ secret ∨ tokenExpired tok now = true ∨
        tok.aud ≠ some "authenticated" ∨ tok.sub = none) →
      get_current_user tok secret now = .error .unauthenticated ∧
      AuthError.unauthenticated.statusCode = 401) := by
  constructor
  · intro s h1 h2 h3 h4
    simp [get_current_user, jwtDecode, h1, h2, h3, h4]
  · intro h
    refine ⟨?_, rfl⟩
    by_cases h1 : tok.sig_secret = secret
    · by_cases h2 : tokenExpired tok now
      · simp [get_current_user, jwtDecode, h1, h2]
      · by_cases h3 : tok.aud = some "authenticated"
        · have h4 : tok.sub = none := by
            rcases h with h | h | h | h
            · exact absurd h1 h
            · exact absurd h (by simpa using h2)
            · exact absurd h3 h
            · exact h
          simp [get_current_user, jwtDecode, h1, h2, h3, h4]
        · simp [get_current_user, jwtDecode, h1, h2, h3]
    · simp [get_current_user, jwtDecode, h1]

/-- A well-formed token for exercising `C3_token_validity`. -/
def C3tok : Token :=
  ⟨"s3cret", some 100, some "authenticated", some "user-1",
   some "u@example.com", some "authenticated"⟩

/-- C3 witness: the positive branch of `C3_token_validity` at a concrete
token, and the negative branch at the same token presented with the wrong
secret. -/
theorem C3_token_validity_witness :
    get_current_user C3tok "s3cret" 50 =
      .ok ⟨"user-1", some "u@example.com", some "authenticated", some "authenticated"⟩ ∧
    get_current_user C3tok "other" 50 = .error .unauthenticated :=
  ⟨(C3_token_validity C3tok "s3cret" 50).1 "user-1" rfl (by decide) rfl rfl,
   ((C3_token_validity C3tok "other" 50).2 (Or.inl (by decide))).1⟩

/-! ## C10 — optional authentication never fails -/

/-- C10: the optional authentication variant returns `none` when no
credential is supplied, and returns `none` (the anonymous identity) instead
of failing whenever the supplied credential makes `get_current_user` fail —
it is a total function into `Option Identity` and rejects no input. -/
theorem C10_optional_auth (secret : String) (now : Int) :
    get_optional_user none secret now = none ∧
    ∀ tok, (∃ e, get_current_user tok secret now = .error e) →
      get_optional_user (some tok) secret now = none := by
  refine ⟨rfl, ?_⟩
  rintro tok ⟨e, he⟩
  simp [get_optional_user, he]

/-- A token with a bad signature for exercising `C10_optional_auth`. -/
def C10tok : Token :=
  ⟨"wrong-secret", none, some "authenticated", some "user-1", none, none⟩

/-- C10 witness: a concrete invalid credential is mapped to the anonymous
identity rather than a 401. -/
theorem C10_optional_auth_witness :
    get_optional_user (some C10tok) "real-secret" 0 = none :=
  (C10_optional_auth "real-secret" 0).2 C10tok ⟨.unauthenticated, rfl⟩

/-! ## C7 — config cache invalidation -/

/-- C7: after `invalidate()`, the very next `get_config` read triggers a
fresh fetch (the refresh branch runs, unconditionally), the resulting cache
state is exactly the refreshed one, and the returned config is looked up in
the refreshed cache — regardless of how much TTL was remaining in
`last_refresh` at the moment of invalidation. -/
theorem C7_cache_invalidation (st : CacheState)
    (fetch : Except String (List RateLimitConfig)) (ttl now : Int) (role_id : Nat) :
    (get_config fetch ttl now (invalidate st) role_id).2.2 = true ∧
    (get_config fetch ttl now (invalidate st) role_id).1 =
      refresh_cache fetch now (invalidate st) ∧
    (get_config fetch ttl now (invalidate st) role_id).2.1 =
      natDictGet (refresh_cache fetch now (invalidate st)).cache role_id :=
  ⟨rfl, rfl, rfl⟩

/-! ## Field-filter characterization -/

theorem contains_iff_mem (l : List String) (a : String) :
    l.contains a = true ↔ a ∈ l :=
  List.elem_iff

theorem keepField_iff (perms : List String) (cfg : List (String × String))
    (ai : List String) (k : String) :
    keepField perms cfg ai k = true ↔
      (k ∈ ai ∨ lookupStr cfg k = none ∨
        ∃ req, lookupStr cfg k = some req ∧ req ∈ perms) := by
  unfold keepField
  by_cases hai : ai.contains k
  · simp only [if_pos hai, true_iff]
    exact Or.inl ((contains_iff_mem ai k).mp hai)
  · rw [if_neg hai]
    have hk : ¬ k ∈ ai := fun hm => hai ((contains_iff_mem ai k).mpr hm)
    cases hl : lookupStr cfg k with
    | none => simp [hk]
    | some rp =>
      constructor
      · intro hp
        exact Or.inr (Or.inr ⟨rp, rfl, (contains_iff_mem perms rp).mp hp⟩)
      · rintro (h | h | ⟨req, hreq, hmem⟩)
        · exact absurd h hk
        · exact absurd h (by simp)
        · obtain rfl : rp = req := by injection hreq
          exact (contains_iff_mem perms rp).mpr hmem

theorem foldl_filterStep (perms : List String) (cfg : List (String × String))
    (ai : List String) :
    ∀ (data acc : Dict),
      (data.map Prod.fst).Nodup →
      (∀ kv : String × Value, kv ∈ data → ¬ kv.1 ∈ acc.map Prod.fst) →
      data.foldl (filterStep perms cfg ai) acc =
        acc ++ data.filter (fun kv => keepField perms cfg ai kv.1) := by
  intro data
  induction data with
  | nil =>
    intro acc _ _
    simp
  | cons kv rest ih =>
    intro acc hnd hfresh
    obtain ⟨k, v⟩ := kv
    simp only [List.map_cons, List.nodup_cons] at hnd
    have hk_acc : ¬ k ∈ acc.map Prod.fst := hfresh (k, v) (List.mem_cons_self _ _)
    have hfreshr : ∀ kv' : String × Value, kv' ∈ rest → ¬ kv'.1 ∈ acc.map Prod.fst :=
      fun kv' hkv' => hfresh kv' (List.mem_cons_of_mem _ hkv')
    have hfresha : ∀ kv' : String × Value, kv' ∈ rest →
        ¬ kv'.1 ∈ (acc ++ [(k, v)]).map Prod.fst := by
      intro kv' hkv'
      simp only [List.map_append, List.mem_append, List.map_cons, List.map_nil,
        List.mem_singleton, not_or]
      exact ⟨hfreshr kv' hkv',
        fun hk => hnd.1 (hk ▸ List.mem_map_of_mem Prod.fst hkv')⟩
    rw [List.foldl_cons]
    by_cases hai : k ∈ ai
    · have hstep : filterStep perms cfg ai acc (k, v) = dictSet acc k v := by
        simp [filterStep, hai]
      have hkeep : keepField perms cfg ai k = true := by simp [keepField, hai]
      rw [hstep, dictSet_fresh acc k v hk_acc, ih (acc ++ [(k, v)]) hnd.2 hfresha]
      simp [List.filter_cons, hkeep, List.append_assoc]
    · cases hl : lookupStr cfg k with
      | some rp =>
        by_cases hp : rp ∈ perms
        · have hstep : filterStep perms cfg ai acc (k, v) = dictSet acc k v := by
            simp [filterStep, hai, hl, hp]
          have hkeep : keepField perms cfg ai k = true := by
            simp [keepField, hai, hl, hp]
          rw [hstep, dictSet_fresh acc k v hk_acc, ih (acc ++ [(k, v)]) hnd.2 hfresha]
          simp [List.filter_cons, hkeep, List.append_assoc]
        · have hstep : filterStep perms cfg ai acc (k, v) = acc := by
            simp [filterStep, hai, hl, hp]
          have hkeep : keepField perms cfg ai k = false := by
            simp [keepField, hai, hl, hp]
          rw [hstep, ih acc hnd.2 hfreshr]
          simp [List.filter_cons, hkeep]
      | none =>
        have hstep : filterStep perms cfg ai acc (k, v) = dictSet acc k v := by
          simp [filterStep, hai, hl]
        have hkeep : keepField perms cfg ai k = true := by simp [keepField, hai, hl]
        rw [hstep, dictSet_fresh acc k v hk_acc, ih (acc ++ [(k, v)]) hnd.2 hfresha]
        simp [List.filter_cons, hkeep, List.append_assoc]

theorem filter_fields_eq_filter (data : Dict) (perms : List String)
    (cfg : List (String × String)) (aiOpt : Option (List String))
    (h : (data.map Prod.fst).Nodup) :
    filter_fields data perms cfg aiOpt =
      data.filter (fun kv => keepField perms cfg (aiOpt.getD ["id"]) kv.1) := by
  unfold filter_fields
  rw [foldl_filterStep perms cfg (aiOpt.getD ["id"]) data [] h (by simp)]
  simp

/-! ## C8 — field-filter keep condition -/

/-- C8: a field survives `filter_fields` exactly when it is in the
always-include set, or absent from the field→permission map, or its mapped
permission is among the caller's permissions; and concretely, with
`always_include = {"id"}` and no permissions, filtering
`{"id": 1, "email": "x"}` against `{"email": "users.field.email"}` yields
exactly `{"id": 1}`.  The record is a Python dict, so its keys are assumed
distinct. -/
theorem C8_field_filter (data : Dict) (perms : List String)
    (cfg : List (String × String)) (ai : List String)
    (h : (data.map Prod.fst).Nodup) :
    (∀ k v, (k, v) ∈ filter_fields data perms cfg (some ai) ↔
      ((k, v) ∈ data ∧
        (k ∈ ai ∨ lookupStr cfg k = none ∨
          ∃ req, lookupStr cfg k = some req ∧ req ∈ perms))) ∧
    filter_fields [("id", .nat 1), ("email", .str "x")] []
        [("email", "users.field.email")] (some ["id"]) = [("id", .nat 1)] := by
  refine ⟨?_, rfl⟩
  intro k v
  rw [filter_fields_eq_filter data perms cfg (some ai) h]
  constructor
  · intro hm
    rw [List.mem_filter] at hm
    exact ⟨hm.1, (keepField_iff perms cfg ai k).mp hm.2⟩
  · rintro ⟨hmem, hcond⟩
    rw [List.mem_filter]
    exact ⟨hmem, (keepField_iff perms cfg ai k).mpr hcond⟩

/-- C8 witness: the keep-condition characterization applied at the concrete
record of the claim. -/
theorem C8_field_filter_witness :
    ("id", Value.nat 1) ∈ filter_fields [("id", Value.nat 1), ("email", Value.str "x")]
      [] [("email", "users.field.email")] (some ["id"]) :=
  ((C8_field_filter [("id", Value.nat 1), ("email", Value.str "x")] []
      [("email", "users.field.email")] ["id"] (by decide)).1 "id" (Value.nat 1)).mpr
    ⟨by decide, Or.inl (by decide)⟩

/-! ## C9 — field-filter idempotence -/

/-- C9: `filter_fields` is idempotent — filtering an already-filtered record
with the same permissions, map, and always-include set returns an identical
record.  The record is a Python dict, so its keys are assumed distinct. -/
theorem C9_field_filter_idempotent (data : Dict) (perms : List String)
    (cfg : List (String × String)) (ai : Option (List String))
    (h : (data.map Prod.fst).Nodup) :
    filter_fields (filter_fields data perms cfg ai) perms cfg ai =
      filter_fields data perms cfg ai := by
  have hsub : ((data.filter
      (fun kv => keepField perms cfg (ai.getD ["id"]) kv.1)).map Prod.fst).Nodup :=
    List.Nodup.sublist ((List.filter_sublist data).map Prod.fst) h
  rw [filter_fields_eq_filter data perms cfg ai h]
  rw [filter_fields_eq_filter _ perms cfg ai hsub]
  rw [List.filter_filter]
  simp

/-- C9 witness: idempotence at a concrete record. -/
theorem C9_field_filter_idempotent_witness :
    filter_fields (filter_fields [("id", Value.nat 1), ("email", Value.str "x")]
        [] [("email", "users.field.email")] none)
      [] [("email", "users.field.email")] none =
    filter_fields [("id", Value.nat 1), ("email", Value.str "x")]
      [] [("email", "users.field.email")] none :=
  C9_field_filter_idempotent [("id", Value.nat 1), ("email", Value.str "x")]
    [] [("email", "users.field.email")] none (by decide)

/-! ## C4 — permission guard -/

/-- C4 is stated over the enriched user dict of a concrete run. -/
def C4user : Dict :=
  [("id", .str "u1"), ("email", .str "a@b.c"), ("role", .str "authenticated"),
   ("aud", .str "authenticated")]

/-- The dict produced by the permission guard on `C4user` when the check
passes with roles `["Admin"]` and store ids `[7]`. -/
def C4result : Dict :=
  [("id", .str "u1"), ("email", .str "a@b.c"), ("role", .str "authenticated"),
   ("aud", .str "authenticated"), ("roles", .strList ["Admin"]),
   ("store_ids", .natList [7]), ("user_id", .str "u1")]

/-- C4 counterexample: the claim says that on success the guard enriches the
request-scoped Identity with roles, permissions, and storeIds.  In the code
`permission_checker` sets `roles`, `store_ids` and `user_id` on the user
dict but never attaches the granted `permissions`: after a successful check
the enriched dict has no `"permissions"` key. -/
theorem C4_counterexample :
    permission_checker ["users.read"] ["users.read"] [⟨1, "Admin", none⟩] [7] C4user =
      .ok C4result ∧
    dictGet C4result "permissions" = none ∧
    dictGet C4result "roles" = some (.strList ["Admin"]) ∧
    dictGet C4result "store_ids" = some (.natList [7]) :=
  ⟨rfl, rfl, rfl, rfl⟩

/-- C4 (amended): the guard allows exactly when every required permission is
granted (so allowing is monotone in the granted set, and a missing required
permission forces a 403 Forbidden), and on success it enriches the user dict
with `roles`, `store_ids` and `user_id` — the granted permissions themselves
are not attached (the `"permissions"` entry is whatever the incoming dict
had). -/
theorem C4_permission_guard_amended (required granted : List String)
    (user_roles : List RoleRec) (store_ids : List Nat) (current_user : Dict) :
    ((∀ p ∈ required, p ∈ granted) →
      permission_checker required granted user_roles store_ids current_user =
        .ok (dictSet (dictSet (dictSet current_user "roles"
              (.strList (user_roles.map (fun role => role.name))))
            "store_ids" (.natList store_ids))
          "user_id" ((dictGet current_user "id").getD .null))) ∧
    (∀ r, permission_checker required granted user_roles store_ids current_user = .ok r →
      (∀ p ∈ required, p ∈ granted) ∧
      dictGet r "roles" = some (.strList (user_roles.map (fun role => role.name))) ∧
      dictGet r "store_ids" = some (.natList store_ids) ∧
      dictGet r "user_id" = some ((dictGet current_user "id").getD .null) ∧
      dictGet r "permissions" = dictGet current_user "permissions") ∧
    (∀ granted', (∀ p ∈ granted, p ∈ granted') →
      ∀ r, permission_checker required granted user_roles store_ids current_user = .ok r →
        ∃ r', permission_checker required granted' user_roles store_ids current_user = .ok r') ∧
    (∀ e, permission_checker required granted user_roles store_ids current_user = .error e →
      (∃ p ∈ required, ¬ p ∈ granted) ∧ e.statusCode = 403) := by
  have hall : ∀ (g : List String),
      (required.all (fun perm => g.contains perm) = true) ↔ (∀ p ∈ required, p ∈ g) := by
    intro g
    rw [List.all_eq_true]
    constructor
    · intro h p hp
      exact (contains_iff_mem g p).mp (h p hp)
    · intro h p hp
      exact (contains_iff_mem g p).mpr (h p hp)
  refine ⟨?_, ?_, ?_, ?_⟩
  · intro hsub
    simp only [permission_checker]
    rw [if_pos ((hall granted).mpr hsub)]
  · intro r hr
    simp only [permission_checker] at hr
    by_cases hc : required.all (fun perm => granted.contains perm) = true
    · rw [if_pos hc] at hr
      injection hr with hr
      subst hr
      refine ⟨(hall granted).mp hc, ?_, ?_, ?_, ?_⟩
      · rw [dictGet_set_ne _ _ _ _ (by decide), dictGet_set_ne _ _ _ _ (by decide),
          dictGet_set_self]
      · rw [dictGet_set_ne _ _ _ _ (by decide), dictGet_set_self]
      · rw [dictGet_set_self]
      · rw [dictGet_set_ne _ _ _ _ (by decide), dictGet_set_ne _ _ _ _ (by decide),
          dictGet_set_ne _ _ _ _ (by decide)]
    · rw [if_neg hc] at hr
      cases hr
  · intro granted' hmono r hr
    simp only [permission_checker] at hr
    by_cases hc : required.all (fun perm => granted.contains perm) = true
    · have hsub' : ∀ p ∈ required, p ∈ granted' :=
        fun p hp => hmono p ((hall granted).mp hc p hp)
      refine ⟨dictSet (dictSet (dictSet current_user "roles"
          (.strList (user_roles.map (fun role => role.name))))
          "store_ids" (.natList store_ids))
          "user_id" ((dictGet current_user "id").getD .null), ?_⟩
      simp only [permission_checker]
      rw [if_pos ((hall granted').mpr hsub')]
    · rw [if_neg hc] at hr
      cases hr
  · intro e he
    simp only [permission_checker] at he
    by_cases hc : required.all (fun perm => granted.contains perm) = true
    · rw [if_pos hc] at he
      cases he
    · rw [if_neg hc] at he
      injection he with he
      subst he
      have hne : ¬ ∀ p ∈ required, p ∈ granted := fun hsub => hc ((hall granted).mpr hsub)
      push_neg at hne
      exact ⟨hne, rfl⟩

/-- C4 witness: the amended guard applied at a concrete required set,
granted superset, roles, and store ids. -/
theorem C4_permission_guard_amended_witness :
    permission_checker ["users.read"] ["users.read", "users.write"]
        [⟨1, "Admin", none⟩] [7] C4user =
      .ok (dictSet (dictSet (dictSet C4user "roles" (.strList ["Admin"]))
          "store_ids" (.natList [7]))
        "user_id" ((dictGet C4user "id").getD .null)) :=
  (C4_permission_guard_amended ["users.read"] ["users.read", "users.write"]
      [⟨1, "Admin", none⟩] [7] C4user).1 (by decide)

/-! ## Best-rate-limit selection lemmas -/

theorem bestLoop_some (g : Nat → Option RateLimitConfig) :
    ∀ (l : List Nat) (best : Option RateLimitConfig) (best_rpm : Nat),
      (∀ b, best = some b → b.requests_per_minute.getD 0 = best_rpm) →
      ∀ c, (bestLoop (pureGetCfg g) l () best best_rpm).2 = some c →
        (best = some c ∨
          ∃ rid ∈ l, g rid = some c ∧ best_rpm < c.requests_per_minute.getD 0) ∧
        best_rpm ≤ c.requests_per_minute.getD 0 ∧
        ∀ rid ∈ l, ∀ c2, g rid = some c2 →
          c2.requests_per_minute.getD 0 ≤ c.requests_per_minute.getD 0 := by
  intro l
  induction l with
  | nil =>
    intro best best_rpm hinv c hc
    simp only [bestLoop] at hc
    refine ⟨Or.inl hc, ?_, by simp⟩
    rw [hinv c hc]
  | cons rid rest ih =>
    intro best best_rpm hinv c hc
    cases hg : g rid with
    | none =>
      simp only [bestLoop, pureGetCfg, hg] at hc
      obtain ⟨hmem, hge, hmax⟩ := ih best best_rpm hinv c hc
      refine ⟨?_, hge, ?_⟩
      · rcases hmem with h | ⟨r, hr, hgr, hlt⟩
        · exact Or.inl h
        · exact Or.inr ⟨r, List.mem_cons_of_mem _ hr, hgr, hlt⟩
      · intro r hr c2 hc2
        rcases List.mem_cons.mp hr with rfl | hr'
        · rw [hg] at hc2
          cases hc2
        · exact hmax r hr' c2 hc2
    | some cfg1 =>
      simp only [bestLoop, pureGetCfg, hg] at hc
      by_cases hlt : best_rpm < cfg1.requests_per_minute.getD 0
      · rw [if_pos hlt] at hc
        obtain ⟨hmem, hge, hmax⟩ :=
          ih (some cfg1) (cfg1.requests_per_minute.getD 0)
            (by intro b hb; injection hb with hb; rw [hb]) c hc
        refine ⟨?_, le_trans (le_of_lt hlt) hge, ?_⟩
        · rcases hmem with h | ⟨r, hr, hgr, hlt2⟩
          · injection h with h
            subst h
            exact Or.inr ⟨rid, List.mem_cons_self _ _, hg, hlt⟩
          · exact Or.inr ⟨r, List.mem_cons_of_mem _ hr, hgr, lt_trans hlt hlt2⟩
        · intro r hr c2 hc2
          rcases List.mem_cons.mp hr with rfl | hr'
          · rw [hg] at hc2
            injection hc2 with hc2
            subst hc2
            exact hge
          · exact hmax r hr' c2 hc2
      · rw [if_neg hlt] at hc
        obtain ⟨hmem, hge, hmax⟩ := ih best best_rpm hinv c hc
        refine ⟨?_, hge, ?_⟩
        · rcases hmem with h | ⟨r, hr, hgr, hlt2⟩
          · exact Or.inl h
          · exact Or.inr ⟨r, List.mem_cons_of_mem _ hr, hgr, hlt2⟩
        · intro r hr c2 hc2
          rcases List.mem_cons.mp hr with rfl | hr'
          · rw [hg] at hc2
            injection hc2 with hc2
            subst hc2
            exact le_trans (not_lt.mp hlt) hge
          · exact hmax r hr' c2 hc2

theorem bestLoop_none (g : Nat → Option RateLimitConfig) :
    ∀ (l : List Nat) (best : Option RateLimitConfig) (best_rpm : Nat),
      (bestLoop (pureGetCfg g) l () best best_rpm).2 = none →
      best = none ∧
        ∀ rid ∈ l, ∀ c2, g rid = some c2 →
          c2.requests_per_minute.getD 0 ≤ best_rpm := by
  intro l
  induction l with
  | nil =>
    intro best best_rpm hc
    simp only [bestLoop] at hc
    exact ⟨hc, by simp⟩
  | cons rid rest ih =>
    intro best best_rpm hc
    cases hg : g rid with
    | none =>
      simp only [bestLoop, pureGetCfg, hg] at hc
      obtain ⟨hb, hbound⟩ := ih best best_rpm hc
      refine ⟨hb, ?_⟩
      intro r hr c2 hc2
      rcases List.mem_cons.mp hr with rfl | hr'
      · rw [hg] at hc2
        cases hc2
      · exact hbound r hr' c2 hc2
    | some cfg1 =>
      simp only [bestLoop, pureGetCfg, hg] at hc
      by_cases hlt : best_rpm < cfg1.requests_per_minute.getD 0
      · rw [if_pos hlt] at hc
        obtain ⟨hb, _⟩ := ih (some cfg1) (cfg1.requests_per_minute.getD 0) hc
        cases hb
      · rw [if_neg hlt] at hc
        obtain ⟨hb, hbound⟩ := ih best best_rpm hc
        refine ⟨hb, ?_⟩
        intro r hr c2 hc2
        rcases List.mem_cons.mp hr with rfl | hr'
        · rw [hg] at hc2
          injection hc2 with hc2
          subst hc2
          exact not_lt.mp hlt
        · exact hbound r hr' c2 hc2

/-! ## C1 — effective rate limit selection -/

/-- Rate-limit configs of a caller holding roles 1 (enabled, 5 rpm) and 2
(disabled, 100 rpm). -/
def C1cfgs : Nat → Option RateLimitConfig := fun role_id =>
  if role_id = 1 then some ⟨1, some 5, some 100, some true⟩
  else if role_id = 2 then some ⟨2, some 100, some 1000, some false⟩
  else none

/-- A window store in which subject `"u"` has already made five requests at
time 0. -/
def C1store : StoreState :=
  ⟨fun u => if u = "u" then [0, 0, 0, 0, 0] else [],
   fun u => if u = "u" then [0, 0, 0, 0, 0] else []⟩

/-- C1 counterexample: the claim says a disabled config never determines the
effective limit and that with at least one enabled config the caller is
throttled at the highest enabled rpm.  In the code `_get_best_rate_limit`
ignores `enabled` while selecting the max-rpm config: for roles `[1, 2]`
with role 1 enabled at 5 rpm and role 2 disabled at 100 rpm, the disabled
100-rpm config wins the selection, and because the winner is disabled the
request passes through unthrottled — even though the caller has already made
five requests inside the minute window of its enabled 5-rpm config. -/
theorem C1_counterexample :
    C1cfgs 1 = some ⟨1, some 5, some 100, some true⟩ ∧
    C1cfgs 2 = some ⟨2, some 100, some 1000, some false⟩ ∧
    (get_best_rate_limit (pureGetCfg C1cfgs) [1, 2] ()).2 =
      some ⟨2, some 100, some 1000, some false⟩ ∧
    (dispatchPure C1cfgs (some ⟨"u", [1, 2]⟩) C1store 30).1 = .forwarded none :=
  ⟨rfl, rfl, rfl, rfl⟩

/-- C1 (amended): `_get_best_rate_limit` returns a config of one of the
caller's roles with the strictly maximal positive `requests_per_minute`
among ALL of the caller's configs, enabled or not; if it returns none, every
config found reads 0 rpm.  The request is then throttled only when this
winner is enabled — when the winner is disabled the whole request passes
through unthrottled, so a disabled config can shadow an enabled one. -/
theorem C1_best_rate_limit_amended (g : Nat → Option RateLimitConfig)
    (role_ids : List Nat) :
    (∀ c, (get_best_rate_limit (pureGetCfg g) role_ids ()).2 = some c →
      (∃ rid ∈ role_ids, g rid = some c) ∧
      0 < c.requests_per_minute.getD 0 ∧
      (∀ rid ∈ role_ids, ∀ c2, g rid = some c2 →
        c2.requests_per_minute.getD 0 ≤ c.requests_per_minute.getD 0) ∧
      (c.enabled.getD true = false →
        ∀ uid store now,
          (dispatchPure g (some ⟨uid, role_ids⟩) store now).1 = .forwarded none)) ∧
    ((get_best_rate_limit (pureGetCfg g) role_ids ()).2 = none →
      ∀ rid ∈ role_ids, ∀ c2, g rid = some c2 →
        c2.requests_per_minute.getD 0 = 0) := by
  constructor
  · intro c hc
    have hget := hc
    unfold get_best_rate_limit at hc
    by_cases hemp : role_ids.isEmpty
    · rw [if_pos hemp] at hc
      cases hc
    · rw [if_neg hemp] at hc
      obtain ⟨hmem, _, hmax⟩ :=
        bestLoop_some g role_ids none 0 (by intro b hb; cases hb) c hc
      rcases hmem with h | ⟨rid, hr, hgr, hpos⟩
      · cases h
      · refine ⟨⟨rid, hr, hgr⟩, hpos, hmax, ?_⟩
        intro hdis uid store now
        have hbest : get_best_rate_limit (pureGetCfg g) role_ids () = ((), some c) := by
          rw [show get_best_rate_limit (pureGetCfg g) role_ids () =
            ((get_best_rate_limit (pureGetCfg g) role_ids ()).1,
             (get_best_rate_limit (pureGetCfg g) role_ids ()).2) from rfl, hget]
        have hsw : strStartsWith "Bearer token" "Bearer " = true := by decide
        simp [dispatchPure, dispatch, hbest, hdis, hsw]
  · intro hc rid hr c2 hc2
    unfold get_best_rate_limit at hc
    by_cases hemp : role_ids.isEmpty
    · rw [List.isEmpty_iff] at hemp
      subst hemp
      cases hr
    · rw [if_neg hemp] at hc
      obtain ⟨_, hbound⟩ := bestLoop_none g role_ids none 0 hc
      exact Nat.le_zero.mp (hbound rid hr c2 hc2)

/-- C1 witness: the amended theorem applied at the concrete configs of the
counterexample — the disabled 100-rpm winner forces pass-through. -/
theorem C1_best_rate_limit_amended_witness :
    (dispatchPure C1cfgs (some ⟨"u2", [1, 2]⟩) C1store 30).1 = .forwarded none :=
  (((C1_best_rate_limit_amended C1cfgs [1, 2]).1
      ⟨2, some 100, some 1000, some false⟩ (by decide)).2.2.2 (by decide))
    "u2" C1store 30

/-! ## C5 — sliding window boundary -/

/-- The single enabled config of C5: role 1, 5 requests per minute, 1000 per
hour. -/
def C5cfg : Nat → Option RateLimitConfig := fun role_id =>
  if role_id = 1 then some ⟨1, some 5, some 1000, some true⟩ else none

/-- A variant config whose per-hour ceiling (5) is hit at the same moment as
the per-minute ceiling, to observe which check fires first. -/
def C5cfgHour : Nat → Option RateLimitConfig := fun role_id =>
  if role_id = 1 then some ⟨1, some 5, some 5, some true⟩ else none

/-- The caller of the C5 scenario. -/
def C5ui : Option UserInfo := some ⟨"u", [1]⟩

/-- C5: with an effective limit of 5 requests per minute, five requests at
time 0 all succeed (with the documented remaining-quota headers); a sixth
request at second 30 — inside the trailing 60-second window — is rejected
with `retry_after = 60`; the per-minute ceiling fires before the per-hour
ceiling (with both ceilings exhausted the response still says 60, not 3600);
and at second 61, past 60 seconds from the first request, a sixth request
succeeds. -/
theorem C5_sliding_window_boundary :
    (dispatchPure C5cfg C5ui emptyStore 0).1 =
      .forwarded (some ⟨5, 1000, 4, 999⟩) ∧
    (dispatchPure C5cfg C5ui (runRequests C5cfg C5ui emptyStore [0]) 0).1 =
      .forwarded (some ⟨5, 1000, 3, 998⟩) ∧
    (dispatchPure C5cfg C5ui (runRequests C5cfg C5ui emptyStore [0, 0]) 0).1 =
      .forwarded (some ⟨5, 1000, 2, 997⟩) ∧
    (dispatchPure C5cfg C5ui (runRequests C5cfg C5ui emptyStore [0, 0, 0]) 0).1 =
      .forwarded (some ⟨5, 1000, 1, 996⟩) ∧
    (dispatchPure C5cfg C5ui (runRequests C5cfg C5ui emptyStore [0, 0, 0, 0]) 0).1 =
      .forwarded (some ⟨5, 1000, 0, 995⟩) ∧
    (dispatchPure C5cfg C5ui (runRequests C5cfg C5ui emptyStore [0, 0, 0, 0, 0]) 30).1 =
      .rejected 60 ∧
    (dispatchPure C5cfg C5ui (runRequests C5cfg C5ui emptyStore [0, 0, 0, 0, 0]) 61).1 =
      .forwarded (some ⟨5, 1000, 4, 994⟩) ∧
    (dispatchPure C5cfgHour C5ui (runRequests C5cfgHour C5ui emptyStore [0, 0, 0, 0, 0]) 30).1 =
      .rejected 60 :=
  ⟨rfl, rfl, rfl, rfl, rfl, rfl, rfl, rfl⟩

/-! ## C6 — fail-open behaviour of the limiter -/

theorem bestLoop_error_empty (e : String) (ttl now : Int) :
    ∀ (l : List Nat) (lr : Option Int) (best : Option RateLimitConfig)
      (best_rpm : Nat),
      bestLoop (cacheGetCfg (.error e) ttl now) l ⟨[], lr⟩ best best_rpm =
        (⟨[], lr⟩, best) := by
  intro l
  induction l with
  | nil =>
    intro lr best best_rpm
    rfl
  | cons rid rest ih =>
    intro lr best best_rpm
    have hcfg : cacheGetCfg (Except.error e) ttl now ⟨[], lr⟩ rid = (⟨[], lr⟩, none) := by
      simp [cacheGetCfg, get_config, refresh_cache, natDictGet]
    simp only [bestLoop, hcfg]
    exact ih lr best best_rpm

/-- The rate-limit config cache of the C6 counterexample: one warm entry
(role 1, enabled, 5 rpm) whose TTL has long expired. -/
def C6cache : CacheState := ⟨[(1, ⟨1, some 5, some 1000, some true⟩)], some 0⟩

/-- A window store in which subject `"u"` has made five requests at second
99. -/
def C6store : StoreState :=
  ⟨fun u => if u = "u" then [99, 99, 99, 99, 99] else [],
   fun u => if u = "u" then [99, 99, 99, 99, 99] else []⟩

/-- C6 counterexample: the claim says that on every internal fault —
including a config-fetch failure — the request is allowed through to the
handler.  In the code `_refresh_cache` swallows the fetch exception and
leaves the stale cache in place, so with a warm (expired) cache entry and a
failing store the limiter carries on throttling: the over-quota caller is
rejected with 429, not allowed through. -/
theorem C6_counterexample :
    (dispatch (cacheGetCfg (.error "database unreachable") 60 100) false
        (some "Bearer token") (some ⟨"u", [1]⟩) C6cache C6store 100).1 =
      .rejected 60 :=
  rfl

/-- C6 (amended): no exception propagates from the limiter.  Any exception
reaching `dispatch`'s top-level handler results in the request being
forwarded with no rate headers, and a config-fetch failure is swallowed
inside the cache refresh: with an empty cache the request then always passes
through unthrottled (whatever the path, header, caller, window store, or
remaining TTL) — but with a warm cache the limiter keeps throttling on the
stale configs, as the counterexample shows. -/
theorem C6_fail_open_amended (e : String) (ttl now : Int) :
    (∀ fallback : CacheState × StoreState,
      dispatchSafe (Except.error e) fallback =
        (.forwarded none, fallback.1, fallback.2)) ∧
    (∀ (excludedPath : Bool) (authHeader : Option String)
        (userInfo : Option UserInfo) (lr : Option Int) (store : StoreState),
      (dispatch (cacheGetCfg (.error e) ttl now) excludedPath authHeader userInfo
          ⟨[], lr⟩ store now).1 = .forwarded none) := by
  constructor
  · intro fallback
    rfl
  · intro excludedPath authHeader userInfo lr store
    have hbest : ∀ l : List Nat,
        get_best_rate_limit (cacheGetCfg (.error e) ttl now) l ⟨[], lr⟩ =
          (⟨[], lr⟩, none) := by
      intro l
      unfold get_best_rate_limit
      by_cases hl : l.isEmpty
      · rw [if_pos hl]
      · rw [if_neg hl, bestLoop_error_empty]
    cases excludedPath with
    | true => rfl
    | false =>
      cases authHeader with
      | none => rfl
      | some h =>
        by_cases hsw : strStartsWith h "Bearer " = true
        · cases userInfo with
          | none => simp [dispatch, hsw]
          | some ui => simp [dispatch, hsw, hbest]
        · simp [dispatch, hsw]
